import Mathlib

/-!
Shallow embedding of the order/transaction/group logic of the
TelegramGroupCreator repository.

The embedding follows the in-memory backend `MemStorage` in
`src/server/storage.ts` (the backend exported as `storage` and used by the
route handlers), the route handlers in the routes file
(`registerRoutes`: POST /api/orders with its asynchronous fulfillment
loop, POST /api/admin/approve-payment, POST /api/webhook/payment-confirm),
and the Telegram gateway helpers (`createTelegramGroupsWithSession`,
`sendTelegramOTP`, `verifyTelegramOTP`).

Conventions of the embedding:
* Monetary amounts and balances are rationals (the TypeScript interfaces
  declare them `number`; `MemStorage` does plain arithmetic on them).
* `Map<string, T>` collections become association lists keyed by a `Nat`
  id; `generateId` becomes a fresh-id counter `nextId` threaded through
  the state (ids produced by `Date.now + random` are modelled as fresh).
* `Math.random()` draws become an oracle `rand : Nat -> Nat` consulted at
  successive indices; `Math.floor(Math.random() * n)` becomes `rand k % n`.
* Thrown exceptions become `Except String`; the per-route `try/catch`
  blocks become explicit `match`es on the `Except` value.
* `setTimeout` scheduling in the OTP flow becomes an explicit timer queue
  fired by an `advance`-to-time function (single-threaded event loop).
-/

namespace TGC

/-- Transaction type: `'credit' | 'debit'` in the schema. -/
inductive TxType where
  | credit
  | debit
deriving DecidableEq, Repr

/-- Transaction status: `'pending' | 'completed' | 'failed'`. -/
inductive TxStatus where
  | pending
  | completed
  | failed
deriving DecidableEq, Repr

/-- A row of the `transactions` map of `MemStorage`. -/
structure Transaction where
  id : Nat
  userId : Nat
  txType : TxType
  amount : ℚ
  description : String
  status : TxStatus
  txHash : Option String := none
deriving DecidableEq, Repr

/-- Order status: `'pending' | 'processing' | 'completed' | 'failed'`. -/
inductive OrderStatus where
  | pending
  | processing
  | completed
  | failed
deriving DecidableEq, Repr

/-- A row of the `orders` map of `MemStorage`.  `completedAt` is modelled
as a flag recording whether the timestamp was stamped. -/
structure Order where
  id : Nat
  userId : Nat
  groupCount : Nat
  cost : ℚ
  groupNamePattern : String
  isPrivate : Bool
  status : OrderStatus
  groupsCreated : Nat
  errorMessage : Option String := none
  completedAt : Bool := false
deriving DecidableEq, Repr

/-- A row of the `groups` map of `MemStorage`. -/
structure Group where
  id : Nat
  orderId : Nat
  userId : Nat
  groupName : String
  telegramGroupId : Option String := none
  inviteLink : Option String := none
deriving DecidableEq, Repr

/-- A row of the `autoMessages` map of `MemStorage`. -/
structure AutoMessage where
  id : Nat
  groupId : Nat
  message : String
deriving DecidableEq, Repr

/-- A user row (password and profile fields omitted: the claims only touch
`id`, `balance`, `isAdmin`). -/
structure User where
  id : Nat
  balance : ℚ
  isAdmin : Bool := false
deriving DecidableEq, Repr

/-- A telegram connection row (credential strings omitted: admission only
asks whether an active connection exists for the user). -/
structure TelegramConnection where
  id : Nat
  userId : Nat
  isActive : Bool
deriving DecidableEq, Repr

/-- The singleton payment settings record. -/
structure PaymentSetting where
  pricePerHundredGroups : ℚ
  maxGroupsPerOrder : Nat
deriving DecidableEq, Repr

/-- The state of `MemStorage`: one association list per `Map` field plus
the fresh-id counter standing in for `generateId`. -/
structure Storage where
  users : List User
  telegramConnections : List TelegramConnection
  orders : List Order
  groups : List Group
  transactions : List Transaction
  paymentSettings : Option PaymentSetting
  autoMessages : List AutoMessage
  nextId : Nat
deriving DecidableEq, Repr

/-- `MemStorage.getUser` (password stripping is irrelevant here). -/
def getUser (s : Storage) (userId : Nat) : Option User :=
  s.users.find? (fun u => u.id == userId)

/-- Look up a transaction by id (`this.transactions.get(id)`). -/
def findTransaction (s : Storage) (id : Nat) : Option Transaction :=
  s.transactions.find? (fun t => t.id == id)

/-- Look up an order by id (`this.orders.get(orderId)`). -/
def findOrder (s : Storage) (id : Nat) : Option Order :=
  s.orders.find? (fun o => o.id == id)

/-- `MemStorage.getActiveTelegramConnection`: first connection of the user
with `isActive` set. -/
def getActiveTelegramConnection (s : Storage) (userId : Nat) :
    Option TelegramConnection :=
  s.telegramConnections.find? (fun c => c.userId == userId && c.isActive)

/-- `MemStorage.updateUserBalance(userId, amount)`: throws
`'User not found'` if the user is absent, otherwise `user.balance += amount`
in place. -/
def updateUserBalance (s : Storage) (userId : Nat) (amount : ℚ) :
    Except String (Storage × User) :=
  match getUser s userId with
  | none => .error "User not found"
  | some u =>
    let u' : User := { u with balance := u.balance + amount }
    let users' := s.users.map (fun x => if x.id == userId then u' else x)
    .ok ({ s with users := users' }, u')

/-- `MemStorage.createTransaction`: insert with `status ?? 'pending'`. -/
def createTransaction (s : Storage) (userId : Nat) (txType : TxType)
    (amount : ℚ) (description : String) (status : Option TxStatus) :
    Storage × Transaction :=
  let t : Transaction :=
    { id := s.nextId, userId := userId, txType := txType, amount := amount,
      description := description, status := status.getD .pending }
  ({ s with transactions := s.transactions ++ [t], nextId := s.nextId + 1 }, t)

/-- `MemStorage.updateTransactionStatus(id, status, txHash?)`: throws
`'Transaction not found'` if absent; sets `status`; sets `txHash` only when
the argument is truthy (present and non-empty). -/
def updateTransactionStatus (s : Storage) (id : Nat) (status : TxStatus)
    (txHash : Option String) : Except String (Storage × Transaction) :=
  match findTransaction s id with
  | none => .error "Transaction not found"
  | some t =>
    let hash' := match txHash with
      | some h => if h = "" then t.txHash else some h
      | none => t.txHash
    let t' : Transaction := { t with status := status, txHash := hash' }
    let txs' := s.transactions.map (fun x => if x.id == id then t' else x)
    .ok ({ s with transactions := txs' }, t')

/-- `MemStorage.adminApprovePayment(transactionId)`: throws if the
transaction is missing; credits the balance only when the transaction is a
`credit` in status `pending`; then unconditionally sets the status to
`completed` and returns the updated transaction. -/
def adminApprovePayment (s : Storage) (transactionId : Nat) :
    Except String (Storage × Transaction) :=
  match findTransaction s transactionId with
  | none => .error "Transaction not found"
  | some t =>
    if t.txType = .credit ∧ t.status = .pending then
      match updateUserBalance s t.userId t.amount with
      | .error e => .error e
      | .ok (s1, _) => updateTransactionStatus s1 transactionId .completed none
    else
      updateTransactionStatus s transactionId .completed none

/-- `MemStorage.createOrder`: inserts with status forced to `'pending'`
and `groupsCreated` forced to `0`. -/
def createOrder (s : Storage) (userId : Nat) (groupCount : Nat) (cost : ℚ)
    (groupNamePattern : String) (isPrivate : Bool) : Storage × Order :=
  let o : Order :=
    { id := s.nextId, userId := userId, groupCount := groupCount,
      cost := cost, groupNamePattern := groupNamePattern,
      isPrivate := isPrivate, status := .pending, groupsCreated := 0 }
  ({ s with orders := s.orders ++ [o], nextId := s.nextId + 1 }, o)

/-- `MemStorage.updateOrderStatus(orderId, status, groupsCreated?,
errorMessage?)`: throws `'Order not found'` if absent; sets `status`
always, `groupsCreated` when supplied, `errorMessage` when truthy
(present and non-empty), and stamps `completedAt` when the new status is
`'completed'`. -/
def updateOrderStatus (s : Storage) (orderId : Nat) (status : OrderStatus)
    (groupsCreated : Option Nat) (errorMessage : Option String) :
    Except String (Storage × Order) :=
  match findOrder s orderId with
  | none => .error "Order not found"
  | some o =>
    let gc' := groupsCreated.getD o.groupsCreated
    let em' := match errorMessage with
      | some m => if m = "" then o.errorMessage else some m
      | none => o.errorMessage
    let o' : Order :=
      { o with
        status := status, groupsCreated := gc', errorMessage := em',
        completedAt := if status = .completed then true else o.completedAt }
    let orders' := s.orders.map (fun x => if x.id == orderId then o' else x)
    .ok ({ s with orders := orders' }, o')

/-- `MemStorage.createGroup`: pure insert. -/
def createGroup (s : Storage) (orderId userId : Nat) (groupName : String)
    (telegramGroupId inviteLink : Option String) : Storage × Group :=
  let g : Group :=
    { id := s.nextId, orderId := orderId, userId := userId,
      groupName := groupName, telegramGroupId := telegramGroupId,
      inviteLink := inviteLink }
  ({ s with groups := s.groups ++ [g], nextId := s.nextId + 1 }, g)

/-- `MemStorage.createAutoMessage(groupId, message)`: pure insert. -/
def createAutoMessage (s : Storage) (groupId : Nat) (message : String) :
    Storage × AutoMessage :=
  let m : AutoMessage := { id := s.nextId, groupId := groupId, message := message }
  ({ s with autoMessages := s.autoMessages ++ [m], nextId := s.nextId + 1 }, m)

/-- The body accepted by `createOrderSchema` in the routes file:
`groupCount` an integer `>= 1`, `cost` a client-supplied string parsed with
`parseFloat` (modelled as the parsed rational), optional pattern and
privacy flag. -/
structure CreateOrderRequest where
  groupCount : Nat
  cost : ℚ
  groupNamePattern : Option String := none
  isPrivate : Option Bool := none
deriving DecidableEq, Repr

/-- The admission error responses of POST /api/orders. -/
inductive ApiError where
  | invalidInput
  | limitExceeded
  | userNotFound
  | insufficientBalance
  | noActiveConnection
  | internalError
deriving DecidableEq, Repr

/-- Observable storage mutations issued by the admission phase, in call
order. -/
inductive AdmissionEvent where
  | balanceDebited (userId : Nat) (amount : ℚ)
  | txRecorded (txType : TxType) (status : TxStatus) (amount : ℚ)
  | orderCreated (orderId : Nat) (status : OrderStatus) (groupsCreated : Nat)
  | orderStatusSet (orderId : Nat) (status : OrderStatus)
deriving DecidableEq, Repr

/-- Outcome of the synchronous part of POST /api/orders.  `ok` carries the
storage after admission, the order as responded (the route responds with
the stored order object, which `updateOrderStatus` has mutated in place),
and the event trace; `err` carries the storage at the time of the error
response. -/
inductive RouteResult where
  | ok (s : Storage) (ord : Order) (events : List AdmissionEvent)
  | err (s : Storage) (e : ApiError)
deriving DecidableEq, Repr

/-- The synchronous admission phase of POST /api/orders, statement for
statement: resolve `maxGroupsPerOrder` (JS `settings?.maxGroupsPerOrder ||
10`, so a falsy stored value also falls back to 10), validate the body,
reject on count/balance/connection, then debit the balance, record a
`completed` debit transaction, create the order and mark it processing. -/
def createOrderRoute (s : Storage) (userId : Nat) (req : CreateOrderRequest) :
    RouteResult :=
  let maxGroups : Nat :=
    match s.paymentSettings with
    | some ps => if ps.maxGroupsPerOrder = 0 then 10 else ps.maxGroupsPerOrder
    | none => 10
  if req.groupCount < 1 then .err s .invalidInput
  else if req.groupCount > maxGroups then .err s .limitExceeded
  else
    match getUser s userId with
    | none => .err s .userNotFound
    | some user =>
      if user.balance < req.cost then .err s .insufficientBalance
      else
        match getActiveTelegramConnection s userId with
        | none => .err s .noActiveConnection
        | some _ =>
          match updateUserBalance s userId (-req.cost) with
          | .error _ => .err s .internalError
          | .ok (s1, _) =>
            let ev1 := [AdmissionEvent.balanceDebited userId req.cost]
            let (s2, _tx) := createTransaction s1 userId .debit req.cost
              ("Group creation order - " ++ toString req.groupCount ++ " groups")
              (some .completed)
            let ev2 := ev1 ++ [AdmissionEvent.txRecorded .debit .completed req.cost]
            let (s3, ord) := createOrder s2 userId req.groupCount req.cost
              (req.groupNamePattern.getD "Group {number}")
              (req.isPrivate.getD false)
            let ev3 := ev2 ++ [AdmissionEvent.orderCreated ord.id ord.status ord.groupsCreated]
            match updateOrderStatus s3 ord.id .processing none none with
            | .error _ => .err s3 .internalError
            | .ok (s4, ord2) =>
              .ok s4 ord2 (ev3 ++ [AdmissionEvent.orderStatusSet ord.id .processing])

/-- The storage in which a route outcome leaves the system. -/
def routeStorage : RouteResult → Storage
  | .ok s _ _ => s
  | .err s _ => s

/-- The order responded by a successful admission. -/
def routeOrder? : RouteResult → Option Order
  | .ok _ o _ => some o
  | .err _ _ => none

/-- The error responded by a rejected admission. -/
def routeErr? : RouteResult → Option ApiError
  | .ok _ _ _ => none
  | .err _ e => some e

/-- The event trace of a successful admission. -/
def routeEvents : RouteResult → List AdmissionEvent
  | .ok _ _ evs => evs
  | .err _ _ => []

/-- POST /api/webhook/payment-confirm: sets the transaction to `completed`
with the posted hash, then — for a `credit` transaction, with **no check of
the previous status** — adds the amount to the user balance. -/
def webhookPaymentConfirm (s : Storage) (transactionId : Nat)
    (txHash : String) : Except String Storage :=
  match updateTransactionStatus s transactionId .completed (some txHash) with
  | .error e => .error e
  | .ok (s1, t) =>
    if t.txType = .credit then
      match updateUserBalance s1 t.userId t.amount with
      | .error e => .error e
      | .ok (s2, _) => .ok s2
    else
      .ok s1

/-- The fixed pool `randomMessages` of the fulfillment loop (texts from the
routes file; apostrophes written as escapes). -/
def randomMessages : List String :=
  [ "Welcome to the group!",
    "Great to have everyone here!",
    "Let\x27s build something amazing together",
    "Excited to be part of this community",
    "Looking forward to great discussions",
    "Hello everyone! 👋",
    "This is going to be awesome!",
    "Can\x27t wait to get started",
    "Happy to join this group",
    "Let\x27s make this group active and engaging",
    "Greetings to all members!",
    "Ready for some great conversations",
    "Thanks for adding me here",
    "Let\x27s collaborate and grow together",
    "Excited about this new community" ]

/-- `pattern.replace('{number}', i.toString())`. -/
def substNumber (pattern : String) (i : Nat) : String :=
  pattern.replace "{number}" (toString i)

/-- The inner message loop of the fulfillment body: `messageCount`
iterations, each drawing one pool index from the random oracle and
persisting one `AutoMessage`.  Returns the storage and the next oracle
index. -/
def msgLoop (rand : Nat → Nat) (gid : Nat) :
    Storage → Nat → Nat → Storage × Nat
  | s, k, 0 => (s, k)
  | s, k, j + 1 =>
    let msg := randomMessages.getD (rand k % randomMessages.length) ""
    msgLoop rand gid (createAutoMessage s gid msg).1 (k + 1) j

/-- One iteration `i` of the fulfillment loop: create the group row (with
simulated external id and invite link), draw `messageCount = 10 +
(rand % 6)` and send the messages, then write progress
`updateOrderStatus(orderId, 'processing', i)`.  `inl` carries the new
storage and oracle index; `inr` carries the storage and the thrown error
message. -/
def groupIter (oid uid : Nat) (pattern : String) (rand : Nat → Nat)
    (s : Storage) (k i : Nat) : (Storage × Nat) ⊕ (Storage × String) :=
  let cg := createGroup s oid uid (substNumber pattern i)
    (some ("sim_" ++ toString i)) (some ("https://t.me/+simulated_" ++ toString i))
  let ml := msgLoop rand cg.2.id cg.1 (k + 1) (10 + rand k % 6)
  match updateOrderStatus ml.1 oid .processing (some i) none with
  | .ok p => .inl (p.1, ml.2)
  | .error e => .inr (ml.1, e)

/-- The fulfillment loop `for i = 1..groupCount`, running iteration `i`
with `r` iterations remaining.  Returns the storage, the next oracle
index, the list of `groupsCreated` values successfully written, and the
error message if an iteration threw. -/
def groupsLoop (oid uid : Nat) (pattern : String) (rand : Nat → Nat) :
    Storage → Nat → Nat → Nat → Storage × Nat × List Nat × Option String
  | s, k, _, 0 => (s, k, [], none)
  | s, k, i, r + 1 =>
    match groupIter oid uid pattern rand s k i with
    | .inl p =>
      let q := groupsLoop oid uid pattern rand p.1 p.2 (i + 1) r
      (q.1, q.2.1, i :: q.2.2.1, q.2.2.2)
    | .inr p => (p.1, k, [], some p.2)

/-- The whole `setTimeout` body of POST /api/orders: run the loop from
`i = 1`; if it completed, write `updateOrderStatus(orderId, 'completed',
groupCount)`; if it threw, the catch writes `updateOrderStatus(orderId,
'failed', undefined, message)`.  A failure of the final update itself is
an unhandled rejection: the storage stays as the loop left it.  Also
returns the list of `groupsCreated` values written, for the progress
claims. -/
def fulfillOrderT (s : Storage) (oid uid : Nat) (groupCount : Nat)
    (pattern : String) (rand : Nat → Nat) : Storage × List Nat :=
  let q := groupsLoop oid uid pattern rand s 0 1 groupCount
  match q.2.2.2 with
  | none =>
    match updateOrderStatus q.1 oid .completed (some groupCount) none with
    | .ok p => (p.1, q.2.2.1 ++ [groupCount])
    | .error _ => (q.1, q.2.2.1)
  | some msg =>
    match updateOrderStatus q.1 oid .failed none (some msg) with
    | .ok p => (p.1, q.2.2.1)
    | .error _ => (q.1, q.2.2.1)

/-- The fulfillment job, storage part. -/
def fulfillOrder (s : Storage) (oid uid : Nat) (groupCount : Nat)
    (pattern : String) (rand : Nat → Nat) : Storage :=
  (fulfillOrderT s oid uid groupCount pattern rand).1

/-- `MemStorage.getGroupsByOrder`: the Group rows persisted for an
order. -/
def getGroupsByOrder (s : Storage) (orderId : Nat) : List Group :=
  s.groups.filter (fun g => g.orderId == orderId)

/-- Failure modes of a gateway call (`RateLimited`, `Unauthorized`,
`Transient`). -/
inductive GatewayErr where
  | rateLimited
  | unauthorized
  | transient
deriving DecidableEq, Repr

/-- The record pushed by `createTelegramGroupsWithSession` for each group
whose creation succeeded. -/
structure TGGroup where
  name : String
  telegramGroupId : String
  inviteLink : String
deriving DecidableEq, Repr

/-- The `for (const groupName of groupNames)` loop of
`createTelegramGroupsWithSession`, with the two external calls of call
position `i` modelled by oracles (`createCh i` = `channels.CreateChannel`,
`exportInv i` = `messages.ExportChatInvite`).  The per-group `try/catch`
swallows a failure of either call and continues with the next name; a
successful pair is pushed. -/
def createGroupsTG (createCh exportInv : Nat → Except GatewayErr String) :
    Nat → List String → List TGGroup
  | _, [] => []
  | i, name :: rest =>
    match createCh i with
    | .ok cid =>
      match exportInv i with
      | .ok link =>
        ⟨name, cid, link⟩ :: createGroupsTG createCh exportInv (i + 1) rest
      | .error _ => createGroupsTG createCh exportInv (i + 1) rest
    | .error _ => createGroupsTG createCh exportInv (i + 1) rest

/-- An entry of the `activeSessions` map of the OTP flow: the connected
client (identified by a number) and the creation timestamp in
milliseconds. -/
structure PendingEntry where
  client : Nat
  created : Nat
deriving DecidableEq, Repr

/-- The process-wide OTP verification state: the `activeSessions` map, the
outstanding `setTimeout` cleanup timers (key, fire time), and the log of
clients on which `disconnect()` has been called. -/
structure OtpSys where
  pending : List (String × PendingEntry)
  timers : List (String × Nat)
  disconnected : List Nat
deriving DecidableEq, Repr

/-- The initial OTP state. -/
def emptyOtp : OtpSys := ⟨[], [], []⟩

/-- `activeSessions.get(key)`. -/
def mapGet (m : List (String × PendingEntry)) (k : String) :
    Option PendingEntry :=
  (m.find? (fun p => p.1 == k)).map (fun p => p.2)

/-- `activeSessions.delete(key)`. -/
def mapDelete (m : List (String × PendingEntry)) (k : String) :
    List (String × PendingEntry) :=
  m.filter (fun p => ¬ p.1 == k)

/-- `activeSessions.set(key, value)`. -/
def mapSet (m : List (String × PendingEntry)) (k : String)
    (v : PendingEntry) : List (String × PendingEntry) :=
  mapDelete m k ++ [(k, v)]

/-- The body of the `setTimeout` callback scheduled by `sendTelegramOTP`:
if an entry is still stored under the key, disconnect its client and
delete the entry; otherwise do nothing. -/
def fireTimer (s : OtpSys) (k : String) : OtpSys :=
  match mapGet s.pending k with
  | some e =>
    { s with
      pending := mapDelete s.pending k,
      disconnected := s.disconnected ++ [e.client] }
  | none => s

/-- Run the scheduled timers whose fire time has been reached by `t`, in
scheduling order; later timers are kept. -/
def advanceGo (t : Nat) : List (String × Nat) → OtpSys → OtpSys
  | [], acc => acc
  | (k, ft) :: rest, acc =>
    if ft ≤ t then advanceGo t rest (fireTimer acc k)
    else advanceGo t rest { acc with timers := acc.timers ++ [(k, ft)] }

/-- Advance the event loop to time `t`: every due timer fires. -/
def advance (s : OtpSys) (t : Nat) : OtpSys :=
  advanceGo t s.timers { s with timers := [] }

/-- The five-minute disposal window of `sendTelegramOTP`
(`5 * 60 * 1000` ms). -/
def otpWindowMs : Nat := 5 * 60 * 1000

/-- User-driven OTP actions, each carrying the event-loop time at which it
runs: `request` is `sendTelegramOTP` storing the fresh connection under
its key and scheduling disposal at `t + otpWindowMs`; `verify` is
`verifyTelegramOTP`, which on a missing entry throws without touching
state, on success deletes the entry (keeping the client connected), and on
a sign-in error disconnects the client and deletes the entry. -/
inductive OtpAction where
  | request (k : String) (client : Nat) (t : Nat)
  | verify (k : String) (ok : Bool) (t : Nat)
deriving DecidableEq, Repr

/-- One event-loop step: run the timers due by the action's time, then the
action itself. -/
def stepOtp (s : OtpSys) : OtpAction → OtpSys
  | .request k c t =>
    let s1 := advance s t
    { s1 with
      pending := mapSet s1.pending k ⟨c, t⟩,
      timers := s1.timers ++ [(k, t + otpWindowMs)] }
  | .verify k ok t =>
    let s1 := advance s t
    match mapGet s1.pending k with
    | none => s1
    | some e =>
      if ok then { s1 with pending := mapDelete s1.pending k }
      else
        { s1 with
          pending := mapDelete s1.pending k,
          disconnected := s1.disconnected ++ [e.client] }

/-- Run a sequence of OTP actions from the empty state. -/
def runOtp (as : List OtpAction) : OtpSys :=
  as.foldl stepOtp emptyOtp

/-- The balance of an account as read from storage. -/
def userBalance (s : Storage) (userId : Nat) : Option ℚ :=
  (getUser s userId).map (fun u => u.balance)

/-! ### Lookup lemmas for the in-place map updates -/

theorem find?_map_pres {α : Type} (l : List α) (p : α → Bool) (g : α → α)
    (hg : ∀ x, p (g x) = p x) : (l.map g).find? p = (l.find? p).map g := by
  induction l with
  | nil => rfl
  | cons x xs ih =>
    simp only [List.map_cons, List.find?_cons, hg x]
    cases hpx : p x <;> simp [ih]

theorem getUser_after_update (s : Storage) (uid : Nat) (u u' : User)
    (hu : getUser s uid = some u) (hid : u'.id = u.id) :
    (s.users.map (fun x => if x.id == uid then u' else x)).find?
      (fun x => x.id == uid) = some u' := by
  have hpu : u.id = uid := by simpa using List.find?_some hu
  have hg : ∀ x : User,
      ((if x.id == uid then u' else x).id == uid) = (x.id == uid) := by
    intro x
    by_cases hx : x.id = uid
    · simp [hx, hid, hpu]
    · simp [hx]
  rw [find?_map_pres s.users (fun x => x.id == uid) _ hg]
  unfold getUser at hu
  rw [hu]
  simp [hid, hpu]

theorem findTransaction_after_update (s : Storage) (id : Nat)
    (t t' : Transaction) (ht : findTransaction s id = some t)
    (hid : t'.id = t.id) :
    (s.transactions.map (fun x => if x.id == id then t' else x)).find?
      (fun x => x.id == id) = some t' := by
  have hpt : t.id = id := by simpa using List.find?_some ht
  have hg : ∀ x : Transaction,
      ((if x.id == id then t' else x).id == id) = (x.id == id) := by
    intro x
    by_cases hx : x.id = id
    · simp [hx, hid, hpt]
    · simp [hx]
  rw [find?_map_pres s.transactions (fun x => x.id == id) _ hg]
  unfold findTransaction at ht
  rw [ht]
  simp [hid, hpt]

theorem findOrder_after_update (s : Storage) (id : Nat)
    (o o' : Order) (ho : findOrder s id = some o)
    (hid : o'.id = o.id) :
    (s.orders.map (fun x => if x.id == id then o' else x)).find?
      (fun x => x.id == id) = some o' := by
  have hpo : o.id = id := by simpa using List.find?_some ho
  have hg : ∀ x : Order,
      ((if x.id == id then o' else x).id == id) = (x.id == id) := by
    intro x
    by_cases hx : x.id = id
    · simp [hx, hid, hpo]
    · simp [hx]
  rw [find?_map_pres s.orders (fun x => x.id == id) _ hg]
  unfold findOrder at ho
  rw [ho]
  simp [hid, hpo]

/-- All order ids in storage are below the fresh-id counter (true of every
state reachable through the storage operations; `generateId` never
collides). -/
def ordersFresh (s : Storage) : Prop :=
  ∀ o ∈ s.orders, o.id < s.nextId

theorem find?_orders_none_of_fresh (l : List Order) (n : Nat)
    (h : ∀ o ∈ l, o.id < n) : l.find? (fun x => x.id == n) = none := by
  rw [List.find?_eq_none]
  intro x hx
  simp only [beq_iff_eq]
  exact Nat.ne_of_lt (h x hx)

theorem find?_append_none {α : Type} (l1 l2 : List α) (p : α → Bool)
    (h : l1.find? p = none) : (l1 ++ l2).find? p = l2.find? p := by
  induction l1 with
  | nil => rfl
  | cons x xs ih =>
    simp only [List.find?_cons] at h ⊢
    cases hpx : p x
    · rw [hpx] at h
      simp only [List.cons_append, List.find?_cons, hpx]
      exact ih h
    · rw [hpx] at h
      cases h

/-! ### Ledger claim theorems -/

/-- C2: for a credit transaction in status pending (with an existing
account), calling `adminApprovePayment` twice with the same transaction id
applies the balance increment exactly once: after both calls the balance
has increased by exactly the amount, the first call returns the
transaction marked completed, and the second call returns that
already-completed transaction unchanged. -/
theorem C2_approveCredit_idempotent (s : Storage) (txId : Nat)
    (t : Transaction) (u : User)
    (ht : findTransaction s txId = some t)
    (hcred : t.txType = .credit) (hpend : t.status = .pending)
    (hu : getUser s t.userId = some u) :
    ∃ s1 t1 s2 t2,
      adminApprovePayment s txId = .ok (s1, t1) ∧
      adminApprovePayment s1 txId = .ok (s2, t2) ∧
      userBalance s2 t.userId = some (u.balance + t.amount) ∧
      t1 = { t with status := .completed } ∧
      t2 = t1 := by
  have ht' : t.id = txId := by simpa using List.find?_some ht
  -- storage after the balance credit of the first call
  set u' : User := { u with balance := u.balance + t.amount } with hu'def
  set sA : Storage :=
    { s with users := s.users.map (fun x => if x.id == t.userId then u' else x) }
    with hsAdef
  have hupd : updateUserBalance s t.userId t.amount = .ok (sA, u') := by
    unfold updateUserBalance
    rw [hu]
  set t1 : Transaction := { t with status := .completed } with ht1def
  have htA : findTransaction sA txId = some t := ht
  set s1 : Storage :=
    { sA with transactions := sA.transactions.map (fun x => if x.id == txId then t1 else x) }
    with hs1def
  have hfirst : adminApprovePayment s txId = .ok (s1, t1) := by
    simp only [adminApprovePayment, ht]
    rw [if_pos ⟨hcred, hpend⟩]
    simp only [hupd, updateTransactionStatus, htA]
  have ht1 : findTransaction s1 txId = some t1 :=
    findTransaction_after_update sA txId t t1 htA rfl
  set s2 : Storage :=
    { s1 with transactions := s1.transactions.map (fun x => if x.id == txId then t1 else x) }
    with hs2def
  have hsecond : adminApprovePayment s1 txId = .ok (s2, t1) := by
    simp only [adminApprovePayment, ht1]
    rw [if_neg (by simp [ht1def])]
    simp only [updateTransactionStatus, ht1]
  refine ⟨s1, t1, s2, t1, hfirst, hsecond, ?_, rfl, rfl⟩
  show userBalance s2 t.userId = some (u.balance + t.amount)
  unfold userBalance getUser
  have hfind : (s.users.map (fun x => if x.id == t.userId then u' else x)).find?
      (fun x => x.id == t.userId) = some u' :=
    getUser_after_update s t.userId u u' hu rfl
  rw [show s2.users = s.users.map (fun x => if x.id == t.userId then u' else x) from rfl]
  rw [hfind]
  rfl

/-- Concrete state for C6: account 0 with balance 10.00, an active
connection, and `PaymentSetting` pricePerHundredGroups = 2.00,
maxGroupsPerOrder = 10. -/
def ws6 : Storage :=
  { users := [{ id := 0, balance := 10 }],
    telegramConnections := [{ id := 1, userId := 0, isActive := true }],
    orders := [], groups := [], transactions := [],
    paymentSettings := some { pricePerHundredGroups := 2, maxGroupsPerOrder := 10 },
    autoMessages := [], nextId := 2 }

/-- Counterexample to C6: with pricePerHundredGroups = 2.00 the claimed
derived cost of a 5-group order is 0.10, but the server accepts the
client-supplied cost verbatim: a request for 5 groups carrying cost 0.30
is admitted, the order's cost is 0.30, and the balance becomes 9.70, not
9.90 — the cost is never derived from the configured unit price. -/
theorem C6_counterexample :
    ws6.paymentSettings =
      some { pricePerHundredGroups := 2, maxGroupsPerOrder := 10 } ∧
    userBalance ws6 0 = some 10 ∧
    routeErr? (createOrderRoute ws6 0 { groupCount := 5, cost := 3/10 }) =
      none ∧
    (routeOrder? (createOrderRoute ws6 0 { groupCount := 5, cost := 3/10 })).map
      (fun o => o.cost) = some (3/10) ∧
    userBalance
      (routeStorage (createOrderRoute ws6 0 { groupCount := 5, cost := 3/10 }))
      0 = some (97/10) ∧
    (97 : ℚ)/10 ≠ 99/10 ∧
    (3 : ℚ)/10 ≠ 5/100 * 2 := by
  refine ⟨rfl, rfl, ?_, ?_, ?_, by norm_num, by norm_num⟩ <;>
    norm_num [createOrderRoute, getUser, getActiveTelegramConnection,
      updateUserBalance, createTransaction, createOrder, updateOrderStatus,
      findOrder, routeErr?, routeStorage, routeOrder?, userBalance, ws6,
      List.find?]

/-- C6 as amended: the order's totalCost is taken verbatim from the
request's client-supplied cost field and fixed at creation — it is never
derived server-side from `pricePerHundredGroups` (first conjunct:
`createOrder` stores exactly the cost passed in).  When the request
carries the client-computed cost 0.10 for 5 groups against balance 10.00,
admission succeeds, the balance becomes 9.90, one `completed` debit
transaction of 0.10 is recorded, and fulfillment ends with the order
`completed` and `groupsCreated` = 5. -/
theorem C6_cost_taken_from_request :
    (∀ (s : Storage) (uid gcnt : Nat) (cost : ℚ) (pattern : String)
      (priv : Bool),
      (createOrder s uid gcnt cost pattern priv).2.cost = cost) ∧
    (routeErr? (createOrderRoute ws6 0 { groupCount := 5, cost := 1/10 }) =
      none ∧
    (routeOrder? (createOrderRoute ws6 0 { groupCount := 5, cost := 1/10 })).map
      (fun o => (o.cost, o.status, o.id)) = some (1/10, .processing, 3) ∧
    userBalance
      (routeStorage (createOrderRoute ws6 0 { groupCount := 5, cost := 1/10 }))
      0 = some (99/10) ∧
    (routeStorage (createOrderRoute ws6 0 { groupCount := 5, cost := 1/10 })).transactions.map
      (fun t => (t.txType, t.status, t.amount)) =
        [(.debit, .completed, 1/10)] ∧
    (findOrder
      (fulfillOrder
        (routeStorage (createOrderRoute ws6 0 { groupCount := 5, cost := 1/10 }))
        3 0 5 "Group {number}" (fun _ => 0)) 3).map
      (fun o => (o.status, o.groupsCreated)) = some (.completed, 5)) := by
  refine ⟨fun s uid gcnt cost pattern priv => rfl, ?_, ?_, ?_, ?_, ?_⟩ <;>
    norm_num [createOrderRoute, getUser, getActiveTelegramConnection,
      updateUserBalance, createTransaction, createOrder, updateOrderStatus,
      findOrder, routeErr?, routeStorage, routeOrder?, userBalance, ws6,
      fulfillOrder, fulfillOrderT, groupsLoop, groupIter, msgLoop,
      createGroup, createAutoMessage, List.find?]

/-- Concrete ledger state for the C2 witness: account 0 with balance 0 and
one pending credit transaction of 25. -/
def ws2 : Storage :=
  { users := [{ id := 0, balance := 0 }],
    telegramConnections := [], orders := [], groups := [],
    transactions := [{ id := 1, userId := 0, txType := .credit, amount := 25, description := "claimed payment", status := .pending }],
    paymentSettings := none, autoMessages := [], nextId := 2 }

/-- The pending credit transaction stored in `ws2`. -/
def wt2 : Transaction :=
  { id := 1, userId := 0, txType := .credit, amount := 25,
    description := "claimed payment", status := .pending }

/-- Witness for C2 at the concrete state `ws2`. -/
theorem C2_approveCredit_idempotent_witness :
    findTransaction ws2 1 = some wt2 ∧
    wt2.txType = .credit ∧ wt2.status = .pending ∧
    getUser ws2 wt2.userId = some { id := 0, balance := 0 } ∧
    (∃ s1 t1 s2 t2,
      adminApprovePayment ws2 1 = .ok (s1, t1) ∧
      adminApprovePayment s1 1 = .ok (s2, t2) ∧
      userBalance s2 wt2.userId = some ((0 : ℚ) + wt2.amount) ∧
      t1 = { wt2 with status := .completed } ∧
      t2 = t1) :=
  ⟨rfl, rfl, rfl, rfl,
    C2_approveCredit_idempotent ws2 1 wt2 { id := 0, balance := 0 } rfl rfl rfl rfl⟩

/-- Concrete state for the C3 counterexample: one **pending debit**
transaction (id 1), which is not a pending credit, so by the claim
re-approval should leave its status unchanged. -/
def cs3 : Storage :=
  { users := [{ id := 0, balance := 0 }],
    telegramConnections := [], orders := [], groups := [],
    transactions := [{ id := 1, userId := 0, txType := .debit, amount := 5, description := "order debit", status := .pending }],
    paymentSettings := none, autoMessages := [], nextId := 2 }

/-- Counterexample to C3: transaction 1 of `cs3` is a pending **debit**
(not a pending credit), yet `adminApprovePayment` does not leave its
status unchanged: it flips it from `pending` to `completed`. -/
theorem C3_counterexample :
    (findTransaction cs3 1).map (fun t => (t.txType, t.status)) =
      some (.debit, .pending) ∧
    (adminApprovePayment cs3 1).map (fun p => p.2.status) = .ok .completed ∧
    TxStatus.completed ≠ TxStatus.pending := by
  refine ⟨rfl, ?_, by decide⟩
  rfl

/-- C3 as amended: `adminApprovePayment` fails with NotFound when the
transaction is missing; for every existing transaction that is not
exactly a pending credit it leaves all user balances unchanged but — not
being a no-op — still unconditionally sets the transaction status to
`completed` and returns the updated transaction. -/
theorem C3_approve_nonpending_sets_completed (s : Storage) (txId : Nat) :
    (findTransaction s txId = none →
      adminApprovePayment s txId = .error "Transaction not found") ∧
    (∀ t : Transaction, findTransaction s txId = some t →
      ¬(t.txType = .credit ∧ t.status = .pending) →
      ∃ s' t', adminApprovePayment s txId = .ok (s', t') ∧
        s'.users = s.users ∧
        (∀ uid, userBalance s' uid = userBalance s uid) ∧
        t' = { t with status := .completed }) := by
  constructor
  · intro hnone
    simp only [adminApprovePayment, hnone]
  · intro t ht hnp
    refine ⟨{ s with transactions :=
        s.transactions.map (fun x => if x.id == txId then { t with status := .completed } else x) },
      { t with status := .completed }, ?_, rfl, fun uid => rfl, rfl⟩
    simp only [adminApprovePayment, ht]
    rw [if_neg hnp]
    simp only [updateTransactionStatus, ht]

/-- Witness for C3's amended theorem at `cs3` (the pending debit). -/
theorem C3_approve_nonpending_witness :
    (findTransaction cs3 1 = some { id := 1, userId := 0, txType := .debit, amount := 5, description := "order debit", status := .pending }) ∧
    (∃ s' t', adminApprovePayment cs3 1 = .ok (s', t') ∧
      s'.users = cs3.users ∧
      (∀ uid, userBalance s' uid = userBalance cs3 uid) ∧
      t' = { id := 1, userId := 0, txType := .debit, amount := 5, description := "order debit", status := .completed }) :=
  ⟨rfl,
    (C3_approve_nonpending_sets_completed cs3 1).2
      { id := 1, userId := 0, txType := .debit, amount := 5,
        description := "order debit", status := .pending }
      rfl (by decide)⟩

/-- C10: the payment-confirmation webhook is not idempotent.  For any
existing credit transaction, whatever its current status, each call sets
the status to `completed` and adds the amount to the balance; two calls
add it twice. -/
theorem C10_webhook_not_idempotent (s : Storage) (txId : Nat)
    (t : Transaction) (u : User) (hash : String)
    (ht : findTransaction s txId = some t) (hcred : t.txType = .credit)
    (hu : getUser s t.userId = some u) :
    ∃ s1 s2,
      webhookPaymentConfirm s txId hash = .ok s1 ∧
      (findTransaction s1 txId).map (fun x => x.status) = some .completed ∧
      userBalance s1 t.userId = some (u.balance + t.amount) ∧
      webhookPaymentConfirm s1 txId hash = .ok s2 ∧
      userBalance s2 t.userId = some (u.balance + t.amount + t.amount) := by
  have ht' : t.id = txId := by simpa using List.find?_some ht
  set t1 : Transaction :=
    { t with status := .completed, txHash := if hash = "" then t.txHash else some hash } with ht1def
  set sB : Storage :=
    { s with transactions := s.transactions.map (fun x => if x.id == txId then t1 else x) }
    with hsBdef
  have hstep1 : updateTransactionStatus s txId .completed (some hash) = .ok (sB, t1) := by
    simp only [updateTransactionStatus, ht]
  set u' : User := { u with balance := u.balance + t.amount } with hu'def
  set s1 : Storage :=
    { sB with users := sB.users.map (fun x => if x.id == t.userId then u' else x) }
    with hs1def
  have huB : getUser sB t.userId = some u := hu
  have hbal1 : updateUserBalance sB t.userId t.amount = .ok (s1, u') := by
    unfold updateUserBalance
    rw [huB]
  have hfirst : webhookPaymentConfirm s txId hash = .ok s1 := by
    simp only [webhookPaymentConfirm, hstep1]
    rw [if_pos (show t1.txType = .credit from hcred)]
    simp only [hbal1]
  have htx1 : findTransaction s1 txId = some t1 :=
    findTransaction_after_update s txId t t1 ht rfl
  have hget1 : getUser s1 t.userId = some u' :=
    getUser_after_update sB t.userId u u' huB rfl
  set t2 : Transaction :=
    { t1 with status := .completed, txHash := if hash = "" then t1.txHash else some hash } with ht2def
  set sC : Storage :=
    { s1 with transactions := s1.transactions.map (fun x => if x.id == txId then t2 else x) }
    with hsCdef
  have hstep2 : updateTransactionStatus s1 txId .completed (some hash) = .ok (sC, t2) := by
    simp only [updateTransactionStatus, htx1]
  set u'' : User := { u' with balance := u'.balance + t.amount } with hu''def
  set s2 : Storage :=
    { sC with users := sC.users.map (fun x => if x.id == t.userId then u'' else x) }
    with hs2def
  have hgetC : getUser sC t.userId = some u' := hget1
  have hbal2 : updateUserBalance sC t.userId t.amount = .ok (s2, u'') := by
    unfold updateUserBalance
    rw [hgetC]
  have hsecond : webhookPaymentConfirm s1 txId hash = .ok s2 := by
    simp only [webhookPaymentConfirm, hstep2]
    rw [if_pos (show t2.txType = .credit from hcred)]
    simp only [hbal2]
  refine ⟨s1, s2, hfirst, by rw [htx1]; rfl, ?_, hsecond, ?_⟩
  · unfold userBalance
    rw [hget1]
    rfl
  · unfold userBalance
    have : getUser s2 t.userId = some u'' :=
      getUser_after_update sC t.userId u' u'' hgetC rfl
    rw [this]
    rfl

/-- Concrete state for the C10 witness: an **already completed** credit of
25 for account 0 with balance 25 (a prior confirmation has run); the
webhook credits it again on each call. -/
def ws10 : Storage :=
  { users := [{ id := 0, balance := 25 }],
    telegramConnections := [], orders := [], groups := [],
    transactions := [{ id := 1, userId := 0, txType := .credit, amount := 25, description := "claimed payment", status := .completed, txHash := some "h0" }],
    paymentSettings := none, autoMessages := [], nextId := 2 }

/-- The completed credit transaction stored in `ws10`. -/
def wt10 : Transaction :=
  { id := 1, userId := 0, txType := .credit, amount := 25,
    description := "claimed payment", status := .completed,
    txHash := some "h0" }

/-- Witness for C10 at `ws10`. -/
theorem C10_webhook_not_idempotent_witness :
    findTransaction ws10 1 = some wt10 ∧
    wt10.txType = .credit ∧
    getUser ws10 wt10.userId = some { id := 0, balance := 25 } ∧
    (∃ s1 s2,
      webhookPaymentConfirm ws10 1 "h1" = .ok s1 ∧
      (findTransaction s1 1).map (fun x => x.status) = some .completed ∧
      userBalance s1 wt10.userId = some ((25 : ℚ) + wt10.amount) ∧
      webhookPaymentConfirm s1 1 "h1" = .ok s2 ∧
      userBalance s2 wt10.userId = some ((25 : ℚ) + wt10.amount + wt10.amount)) :=
  ⟨rfl, rfl, rfl,
    C10_webhook_not_idempotent ws10 1 wt10 { id := 0, balance := 25 } "h1" rfl rfl rfl⟩

/-! ### Fulfillment loop lemmas -/

/-- Number of AutoMessage rows persisted for a given group id. -/
def countMsgs (s : Storage) (gid : Nat) : Nat :=
  s.autoMessages.countP (fun m => m.groupId == gid)

theorem randomMessages_getD_sound :
    ∀ i < randomMessages.length,
      randomMessages.getD i "" ∈ randomMessages ∧
      randomMessages.getD i "" ≠ "" := by decide

theorem msgLoop_spec (rand : Nat → Nat) (gid : Nat) :
    ∀ (j : Nat) (s : Storage) (k : Nat),
      (msgLoop rand gid s k j).1.users = s.users ∧
      (msgLoop rand gid s k j).1.orders = s.orders ∧
      (msgLoop rand gid s k j).1.groups = s.groups ∧
      (msgLoop rand gid s k j).1.transactions = s.transactions ∧
      (msgLoop rand gid s k j).1.nextId = s.nextId + j ∧
      (msgLoop rand gid s k j).2 = k + j ∧
      ∃ new : List AutoMessage,
        (msgLoop rand gid s k j).1.autoMessages = s.autoMessages ++ new ∧
        new.length = j ∧
        ∀ m ∈ new, m.groupId = gid ∧ m.message ∈ randomMessages ∧
          m.message ≠ ""
  | 0, s, k => by simp [msgLoop]
  | j + 1, s, k => by
    have hmsg := randomMessages_getD_sound (rand k % randomMessages.length)
      (Nat.mod_lt _ (by decide))
    have ih := msgLoop_spec rand gid j
      (createAutoMessage s gid
        (randomMessages.getD (rand k % randomMessages.length) "")).1 (k + 1)
    obtain ⟨h1, h2, h3, h4, h5, h6, new, hmsgs, hlen, hall⟩ := ih
    have hstep : msgLoop rand gid s k (j + 1) =
        msgLoop rand gid (createAutoMessage s gid
          (randomMessages.getD (rand k % randomMessages.length) "")).1 (k + 1) j := rfl
    rw [hstep]
    refine ⟨h1, h2, h3, h4, ?_, by rw [h6]; omega,
      { id := s.nextId, groupId := gid, message := randomMessages.getD (rand k % randomMessages.length) "" } :: new,
      ?_, ?_, ?_⟩
    · rw [h5]
      show s.nextId + 1 + j = s.nextId + (j + 1)
      omega
    · rw [hmsgs]
      show (s.autoMessages ++
        [{ id := s.nextId, groupId := gid, message := randomMessages.getD (rand k % randomMessages.length) "" }]) ++ new = _
      rw [List.append_assoc]
      rfl
    · simp [hlen]
    · intro m hm
      rcases List.mem_cons.mp hm with rfl | hm'
      · exact ⟨rfl, hmsg.1, hmsg.2⟩
      · exact hall m hm'

theorem groupIter_spec (oid uid : Nat) (pattern : String) (rand : Nat → Nat)
    (s : Storage) (k i : Nat) (o : Order)
    (ho : findOrder s oid = some o) :
    ∃ s3 : Storage,
      groupIter oid uid pattern rand s k i =
        .inl (s3, k + 1 + (10 + rand k % 6)) ∧
      s3.users = s.users ∧
      s3.transactions = s.transactions ∧
      findOrder s3 oid = some { o with status := .processing, groupsCreated := i } ∧
      s3.nextId = s.nextId + 1 + (10 + rand k % 6) ∧
      (∃ g : Group, s3.groups = s.groups ++ [g] ∧ g.orderId = oid ∧
        g.id = s.nextId) ∧
      (∃ new : List AutoMessage, s3.autoMessages = s.autoMessages ++ new ∧
        new.length = 10 + rand k % 6 ∧
        ∀ m ∈ new, m.groupId = s.nextId ∧ m.message ∈ randomMessages ∧
          m.message ≠ "") := by
  obtain ⟨m1, m2, m3, m4, m5, m6, new, hmsgs, hlen, hall⟩ :=
    msgLoop_spec rand
      (createGroup s oid uid (substNumber pattern i)
        (some ("sim_" ++ toString i))
        (some ("https://t.me/+simulated_" ++ toString i))).2.id
      (10 + rand k % 6)
      (createGroup s oid uid (substNumber pattern i)
        (some ("sim_" ++ toString i))
        (some ("https://t.me/+simulated_" ++ toString i))).1
      (k + 1)
  set cg := createGroup s oid uid (substNumber pattern i)
    (some ("sim_" ++ toString i))
    (some ("https://t.me/+simulated_" ++ toString i)) with hcg
  set ml := msgLoop rand cg.2.id cg.1 (k + 1) (10 + rand k % 6) with hml
  have hfind2 : findOrder ml.1 oid = some o := by
    unfold findOrder
    rw [m2]
    exact ho
  set o' : Order := { o with status := .processing, groupsCreated := i } with ho'
  set os' : List Order := ml.1.orders.map (fun x => if x.id == oid then o' else x) with hos'
  have hupd : updateOrderStatus ml.1 oid .processing (some i) none =
      .ok ({ ml.1 with orders := os' }, o') := by
    unfold updateOrderStatus
    rw [hfind2]
    rfl
  refine ⟨{ ml.1 with orders := os' }, ?_, ?_, ?_, ?_, ?_, ?_, ?_⟩
  · show (match updateOrderStatus ml.1 oid .processing (some i) none with
      | .ok p => Sum.inl (p.1, ml.2)
      | .error e => Sum.inr (ml.1, e)) = _
    rw [hupd, m6]
  · show ml.1.users = s.users
    rw [m1]
    rfl
  · show ml.1.transactions = s.transactions
    rw [m4]
    rfl
  · exact findOrder_after_update ml.1 oid o _ hfind2 rfl
  · show ml.1.nextId = s.nextId + 1 + (10 + rand k % 6)
    rw [m5]
    show cg.1.nextId + (10 + rand k % 6) = _
    rw [show cg.1.nextId = s.nextId + 1 from rfl]
  · refine ⟨cg.2, ?_, rfl, rfl⟩
    show ml.1.groups = s.groups ++ [cg.2]
    rw [m3]
    rfl
  · refine ⟨new, ?_, hlen, ?_⟩
    · show ml.1.autoMessages = s.autoMessages ++ new
      rw [hmsgs]
      rfl
    · intro m hm
      exact hall m hm

theorem groupsLoop_spec (oid uid : Nat) (pattern : String) (rand : Nat → Nat) :
    ∀ (r : Nat) (s : Storage) (k i : Nat) (o : Order),
      findOrder s oid = some o →
      (∀ m ∈ s.autoMessages, m.groupId < s.nextId) →
      (groupsLoop oid uid pattern rand s k i r).2.2.2 = none ∧
      (groupsLoop oid uid pattern rand s k i r).2.2.1 = List.range' i r ∧
      (∃ o', findOrder (groupsLoop oid uid pattern rand s k i r).1 oid = some o') ∧
      (groupsLoop oid uid pattern rand s k i r).1.users = s.users ∧
      (groupsLoop oid uid pattern rand s k i r).1.transactions = s.transactions ∧
      s.nextId ≤ (groupsLoop oid uid pattern rand s k i r).1.nextId ∧
      (∀ m ∈ (groupsLoop oid uid pattern rand s k i r).1.autoMessages,
        m.groupId < (groupsLoop oid uid pattern rand s k i r).1.nextId) ∧
      (∃ newMsgs,
        (groupsLoop oid uid pattern rand s k i r).1.autoMessages =
          s.autoMessages ++ newMsgs ∧
        ∀ m ∈ newMsgs, s.nextId ≤ m.groupId) ∧
      (∀ gid, gid < s.nextId →
        countMsgs (groupsLoop oid uid pattern rand s k i r).1 gid = countMsgs s gid) ∧
      (∃ newGroups,
        (groupsLoop oid uid pattern rand s k i r).1.groups = s.groups ++ newGroups ∧
        newGroups.length = r ∧
        ∀ g ∈ newGroups, g.orderId = oid ∧
          10 ≤ countMsgs (groupsLoop oid uid pattern rand s k i r).1 g.id ∧
          countMsgs (groupsLoop oid uid pattern rand s k i r).1 g.id ≤ 15 ∧
          (∀ m ∈ (groupsLoop oid uid pattern rand s k i r).1.autoMessages,
            m.groupId = g.id → m.message ∈ randomMessages ∧ m.message ≠ ""))
  | 0, s, k, i, o, ho, hwfm => by
    exact ⟨rfl, rfl, ⟨o, ho⟩, rfl, rfl, Nat.le_refl _, hwfm,
      ⟨[], by simp [groupsLoop], by simp⟩, fun gid _ => rfl,
      ⟨[], by simp [groupsLoop], rfl, by simp⟩⟩
  | r + 1, s, k, i, o, ho, hwfm => by
    obtain ⟨s3, geq, husers, htx, hfind3, hnext, ⟨g, hgroups, hgoid, hgid⟩,
      ⟨new, hmsgs, hlen, hall⟩⟩ :=
      groupIter_spec oid uid pattern rand s k i o ho
    have hwfm3 : ∀ m ∈ s3.autoMessages, m.groupId < s3.nextId := by
      intro m hm
      rw [hmsgs] at hm
      rcases List.mem_append.mp hm with h | h
      · have := hwfm m h
        omega
      · have := (hall m h).1
        omega
    obtain ⟨i1, i2, ⟨o3, i3⟩, i4, i5, i6, i7, ⟨recMsgs, hrecMsgs, hrecLo⟩, i9,
      ⟨recGroups, hrecGroups, hrecLen, hrecAll⟩⟩ :=
      groupsLoop_spec oid uid pattern rand r s3 (k + 1 + (10 + rand k % 6))
        (i + 1) { o with status := .processing, groupsCreated := i } hfind3 hwfm3
    simp only [groupsLoop, geq]
    have hcount3 : ∀ gid, gid < s.nextId → countMsgs s3 gid = countMsgs s gid := by
      intro gid hlt
      unfold countMsgs
      rw [hmsgs, List.countP_append]
      have : new.countP (fun m => m.groupId == gid) = 0 := by
        rw [List.countP_eq_zero]
        intro m hm
        have := (hall m hm).1
        simp only [beq_iff_eq]
        omega
      rw [this]
      omega
    have hcountg : countMsgs s3 g.id = 10 + rand k % 6 := by
      unfold countMsgs
      rw [hmsgs, List.countP_append]
      have h0 : s.autoMessages.countP (fun m => m.groupId == g.id) = 0 := by
        rw [List.countP_eq_zero]
        intro m hm
        have := hwfm m hm
        simp only [beq_iff_eq]
        omega
      have h1 : new.countP (fun m => m.groupId == g.id) = new.length := by
        rw [List.countP_eq_length]
        intro m hm
        have := (hall m hm).1
        simp only [beq_iff_eq]
        omega
      rw [h0, h1, hlen]
      omega
    refine ⟨i1, ?_, ⟨o3, i3⟩, ?_, ?_, ?_, i7, ?_, ?_, ?_⟩
    · rw [i2, List.range'_succ]
    · rw [i4, husers]
    · rw [i5, htx]
    · omega
    · refine ⟨new ++ recMsgs, ?_, ?_⟩
      · rw [hrecMsgs, hmsgs, List.append_assoc]
      · intro m hm
        rcases List.mem_append.mp hm with h | h
        · have := (hall m h).1
          omega
        · have := hrecLo m h
          omega
    · intro gid hlt
      rw [i9 gid (by omega), hcount3 gid hlt]
    · refine ⟨g :: recGroups, ?_, by simp [hrecLen], ?_⟩
      · rw [hrecGroups, hgroups, List.append_assoc]
        rfl
      · intro g' hg'
        rcases List.mem_cons.mp hg' with rfl | hmem
        · refine ⟨hgoid, ?_, ?_, ?_⟩
          · rw [i9 g'.id (by omega), hcountg]
            omega
          · rw [i9 g'.id (by omega), hcountg]
            have : rand k % 6 < 6 := Nat.mod_lt _ (by decide)
            omega
          · intro m hm
            rw [hrecMsgs, hmsgs] at hm
            intro hmid
            rcases List.mem_append.mp hm with h | h
            · rcases List.mem_append.mp h with h' | h'
              · have := hwfm m h'
                omega
              · exact ⟨(hall m h').2.1, (hall m h').2.2⟩
            · have := hrecLo m h
              omega
        · exact hrecAll g' hmem

theorem fulfillOrderT_spec (s : Storage) (oid uid gc : Nat)
    (pattern : String) (rand : Nat → Nat) (o : Order)
    (ho : findOrder s oid = some o)
    (hwfm : ∀ m ∈ s.autoMessages, m.groupId < s.nextId) :
    ∃ o' : Order,
      findOrder (fulfillOrderT s oid uid gc pattern rand).1 oid = some o' ∧
      o'.status = .completed ∧
      o'.groupsCreated = gc ∧
      o'.completedAt = true ∧
      (fulfillOrderT s oid uid gc pattern rand).2 = List.range' 1 gc ++ [gc] ∧
      (∃ newGroups,
        (fulfillOrderT s oid uid gc pattern rand).1.groups =
          s.groups ++ newGroups ∧
        newGroups.length = gc ∧
        (∀ g ∈ newGroups, g.orderId = oid) ∧
        ∀ g ∈ newGroups,
          10 ≤ countMsgs (fulfillOrderT s oid uid gc pattern rand).1 g.id ∧
          countMsgs (fulfillOrderT s oid uid gc pattern rand).1 g.id ≤ 15 ∧
          ∀ m ∈ (fulfillOrderT s oid uid gc pattern rand).1.autoMessages,
            m.groupId = g.id → m.message ∈ randomMessages ∧ m.message ≠ "") := by
  obtain ⟨i1, i2, ⟨o3, i3⟩, i4, i5, i6, i7, ⟨recMsgs, hrecMsgs, hrecLo⟩, i9,
    ⟨newGroups, hG, hGlen, hGall⟩⟩ :=
    groupsLoop_spec oid uid pattern rand gc s 0 1 o ho hwfm
  set Q := groupsLoop oid uid pattern rand s 0 1 gc with hQ
  set o'' : Order :=
    { o3 with status := .completed, groupsCreated := gc, completedAt := true }
    with ho''
  set os' : List Order :=
    Q.1.orders.map (fun x => if x.id == oid then o'' else x) with hos'
  have hupd : updateOrderStatus Q.1 oid .completed (some gc) none =
      .ok ({ Q.1 with orders := os' }, o'') := by
    unfold updateOrderStatus
    rw [i3]
    rfl
  have hF : fulfillOrderT s oid uid gc pattern rand =
      ({ Q.1 with orders := os' }, Q.2.2.1 ++ [gc]) := by
    simp only [fulfillOrderT, ← hQ, i1, hupd]
  rw [hF]
  refine ⟨o'', ?_, rfl, rfl, rfl, ?_, newGroups, ?_, hGlen, ?_, ?_⟩
  · exact findOrder_after_update Q.1 oid o3 o'' i3 rfl
  · show Q.2.2.1 ++ [gc] = _
    rw [i2]
  · show Q.1.groups = s.groups ++ newGroups
    exact hG
  · intro g hg
    exact (hGall g hg).1
  · intro g hg
    obtain ⟨_, hc1, hc2, hpool⟩ := hGall g hg
    exact ⟨hc1, hc2, hpool⟩

theorem createGroupsTG_enumFrom
    (createCh exportInv : Nat → Except GatewayErr String) :
    ∀ (names : List String) (i : Nat),
      createGroupsTG createCh exportInv i names =
        (names.enumFrom i).filterMap (fun p =>
          match createCh p.1, exportInv p.1 with
          | .ok cid, .ok link => some (TGGroup.mk p.2 cid link)
          | _, _ => none)
  | [], _ => rfl
  | name :: rest, i => by
    have ih := createGroupsTG_enumFrom createCh exportInv rest (i + 1)
    simp only [createGroupsTG, List.enumFrom_cons, List.filterMap_cons]
    cases hc : createCh i <;> cases he : exportInv i <;>
      simp [hc, he, ih]

theorem chain'_le_zero_range' (n : Nat) :
    List.Chain' (fun a b => a ≤ b) (0 :: (List.range' 1 n ++ [n])) := by
  rw [List.chain'_iff_pairwise]
  refine List.pairwise_cons.mpr ⟨fun x _ => Nat.zero_le x, ?_⟩
  refine List.pairwise_append.mpr ⟨?_, List.pairwise_singleton _ _, ?_⟩
  · exact (List.pairwise_lt_range' 1 n).imp Nat.le_of_lt
  · intro x hx y hy
    rw [List.mem_singleton] at hy
    subst hy
    have := List.mem_range'_1.mp hx
    omega

/-! ### Fulfillment claim theorems -/

/-- C1: (first conjunct) in the gateway loop of
`createTelegramGroupsWithSession`, a failure of `createChannel` or
`exportInvite` at any call position is swallowed there — the result is
exactly the indexed successes, so the loop continues past a failed index
and no exception escapes; (second conjunct) the fulfillment job of POST
/api/orders (in which storage inserts cannot fail) never marks the order
failed: it ends with status `completed` and `groupsCreated` equal to the
number of Group rows persisted for the order. -/
theorem C1_per_group_failure_swallowed :
    (∀ (names : List String)
      (createCh exportInv : Nat → Except GatewayErr String),
      createGroupsTG createCh exportInv 0 names =
        names.enum.filterMap (fun p =>
          match createCh p.1, exportInv p.1 with
          | .ok cid, .ok link => some (TGGroup.mk p.2 cid link)
          | _, _ => none)) ∧
    (∀ (s : Storage) (oid uid gc : Nat) (pattern : String)
      (rand : Nat → Nat) (o : Order),
      findOrder s oid = some o →
      (∀ m ∈ s.autoMessages, m.groupId < s.nextId) →
      getGroupsByOrder s oid = [] →
      ∃ o', findOrder (fulfillOrder s oid uid gc pattern rand) oid = some o' ∧
        o'.status = .completed ∧
        o'.groupsCreated = gc ∧
        (getGroupsByOrder (fulfillOrder s oid uid gc pattern rand) oid).length =
          o'.groupsCreated) := by
  constructor
  · intro names createCh exportInv
    exact createGroupsTG_enumFrom createCh exportInv names 0
  · intro s oid uid gc pattern rand o ho hwfm hempty
    obtain ⟨o', hfind, hstat, hgc, _, _, newGroups, hG, hGlen, hGoid, _⟩ :=
      fulfillOrderT_spec s oid uid gc pattern rand o ho hwfm
    refine ⟨o', hfind, hstat, hgc, ?_⟩
    show ((fulfillOrderT s oid uid gc pattern rand).1.groups.filter
      (fun g => g.orderId == oid)).length = o'.groupsCreated
    rw [hG, List.filter_append]
    have h1 : s.groups.filter (fun g => g.orderId == oid) = [] := hempty
    have h2 : newGroups.filter (fun g => g.orderId == oid) = newGroups :=
      List.filter_eq_self.mpr (fun g hg => by
        simp only [beq_iff_eq]
        exact hGoid g hg)
    rw [h1, h2, hgc, List.nil_append, hGlen]

/-- Concrete state for the fulfillment witnesses: a processing order
(id 0) for 2 groups owned by account 1, no groups or messages yet. -/
def wsf : Storage :=
  { users := [{ id := 1, balance := 0 }],
    telegramConnections := [], groups := [], transactions := [],
    orders := [{ id := 0, userId := 1, groupCount := 2, cost := 0, groupNamePattern := "Group {number}", isPrivate := false, status := .processing, groupsCreated := 0 }],
    paymentSettings := none, autoMessages := [], nextId := 2 }

/-- The order stored in `wsf`. -/
def wof : Order :=
  { id := 0, userId := 1, groupCount := 2, cost := 0,
    groupNamePattern := "Group {number}", isPrivate := false,
    status := .processing, groupsCreated := 0 }

/-- Witness for C1 at `wsf`: fulfillment of the 2-group order with a
constant random oracle. -/
theorem C1_per_group_failure_swallowed_witness :
    findOrder wsf 0 = some wof ∧
    getGroupsByOrder wsf 0 = [] ∧
    (∃ o', findOrder (fulfillOrder wsf 0 1 2 "Group {number}" (fun _ => 0)) 0 =
        some o' ∧
      o'.status = .completed ∧
      o'.groupsCreated = 2 ∧
      (getGroupsByOrder (fulfillOrder wsf 0 1 2 "Group {number}" (fun _ => 0))
        0).length = o'.groupsCreated) :=
  ⟨rfl, rfl,
    C1_per_group_failure_swallowed.2 wsf 0 1 2 "Group {number}" (fun _ => 0)
      wof rfl (by simp [wsf]) rfl⟩

/-- C7: `createOrder` forces the initial `groupsCreated` to 0 (first
conjunct), and the sequence of `groupsCreated` values written during
fulfillment, starting from that 0, is monotonically non-decreasing and
never exceeds the requested group count (second conjunct; the written
sequence is 1, 2, ..., gc, gc). -/
theorem C7_groupsCreated_monotone :
    (∀ (s : Storage) (uid gcnt : Nat) (cost : ℚ) (pattern : String)
      (priv : Bool),
      (createOrder s uid gcnt cost pattern priv).2.groupsCreated = 0 ∧
      (createOrder s uid gcnt cost pattern priv).2.status = .pending) ∧
    (∀ (s : Storage) (oid uid gc : Nat) (pattern : String)
      (rand : Nat → Nat) (o : Order),
      findOrder s oid = some o →
      (∀ m ∈ s.autoMessages, m.groupId < s.nextId) →
      (fulfillOrderT s oid uid gc pattern rand).2 =
        List.range' 1 gc ++ [gc] ∧
      List.Chain' (fun a b => a ≤ b)
        (0 :: (fulfillOrderT s oid uid gc pattern rand).2) ∧
      ∀ v ∈ (fulfillOrderT s oid uid gc pattern rand).2, v ≤ gc) := by
  refine ⟨fun s uid gcnt cost pattern priv => ⟨rfl, rfl⟩, ?_⟩
  intro s oid uid gc pattern rand o ho hwfm
  obtain ⟨o', _, _, _, _, htrace, _⟩ :=
    fulfillOrderT_spec s oid uid gc pattern rand o ho hwfm
  refine ⟨htrace, ?_, ?_⟩
  · rw [htrace]
    exact chain'_le_zero_range' gc
  · intro v hv
    rw [htrace] at hv
    rcases List.mem_append.mp hv with h | h
    · have := List.mem_range'_1.mp h
      omega
    · rw [List.mem_singleton] at h
      omega

/-- Witness for C7 at `wsf`. -/
theorem C7_groupsCreated_monotone_witness :
    findOrder wsf 0 = some wof ∧
    ((fulfillOrderT wsf 0 1 2 "Group {number}" (fun _ => 0)).2 =
      List.range' 1 2 ++ [2] ∧
    List.Chain' (fun a b => a ≤ b)
      (0 :: (fulfillOrderT wsf 0 1 2 "Group {number}" (fun _ => 0)).2) ∧
    ∀ v ∈ (fulfillOrderT wsf 0 1 2 "Group {number}" (fun _ => 0)).2, v ≤ 2) :=
  ⟨rfl,
    C7_groupsCreated_monotone.2 wsf 0 1 2 "Group {number}" (fun _ => 0)
      wof rfl (by simp [wsf])⟩

/-- C8: every group created by the fulfillment loop receives between 10
and 15 AutoMessage rows, and every message stored for such a group is a
non-empty string drawn from the fixed pool `randomMessages`. -/
theorem C8_messages_per_group (s : Storage) (oid uid gc : Nat)
    (pattern : String) (rand : Nat → Nat) (o : Order)
    (ho : findOrder s oid = some o)
    (hwfm : ∀ m ∈ s.autoMessages, m.groupId < s.nextId) :
    ∃ newGroups,
      (fulfillOrder s oid uid gc pattern rand).groups =
        s.groups ++ newGroups ∧
      newGroups.length = gc ∧
      ∀ g ∈ newGroups,
        10 ≤ countMsgs (fulfillOrder s oid uid gc pattern rand) g.id ∧
        countMsgs (fulfillOrder s oid uid gc pattern rand) g.id ≤ 15 ∧
        ∀ m ∈ (fulfillOrder s oid uid gc pattern rand).autoMessages,
          m.groupId = g.id → m.message ∈ randomMessages ∧ m.message ≠ "" := by
  obtain ⟨o', _, _, _, _, _, newGroups, hG, hGlen, _, hMsgs⟩ :=
    fulfillOrderT_spec s oid uid gc pattern rand o ho hwfm
  exact ⟨newGroups, hG, hGlen, hMsgs⟩

/-- Witness for C8 at `wsf`. -/
theorem C8_messages_per_group_witness :
    findOrder wsf 0 = some wof ∧
    (∃ newGroups,
      (fulfillOrder wsf 0 1 2 "Group {number}" (fun _ => 0)).groups =
        wsf.groups ++ newGroups ∧
      newGroups.length = 2 ∧
      ∀ g ∈ newGroups,
        10 ≤ countMsgs (fulfillOrder wsf 0 1 2 "Group {number}" (fun _ => 0)) g.id ∧
        countMsgs (fulfillOrder wsf 0 1 2 "Group {number}" (fun _ => 0)) g.id ≤ 15 ∧
        ∀ m ∈ (fulfillOrder wsf 0 1 2 "Group {number}" (fun _ => 0)).autoMessages,
          m.groupId = g.id → m.message ∈ randomMessages ∧ m.message ≠ "") :=
  ⟨rfl,
    C8_messages_per_group wsf 0 1 2 "Group {number}" (fun _ => 0) wof rfl
      (by simp [wsf])⟩

/-! ### Admission claim theorems -/

theorem routeErr_state_unchanged (s : Storage) (uid : Nat)
    (req : CreateOrderRequest) (s' : Storage) (e : ApiError)
    (h : createOrderRoute s uid req = .err s' e)
    (hne : e ≠ .internalError) : s' = s := by
  simp only [createOrderRoute] at h
  split at h
  · cases h; rfl
  · split at h
    · cases h; rfl
    · split at h
      · cases h; rfl
      · split at h
        · cases h; rfl
        · split at h
          · cases h; rfl
          · split at h
            · cases h
              exact absurd rfl hne
            · split at h
              · cases h
                exact absurd rfl hne
              · cases h

/-- C4: every rejected admission of POST /api/orders — requested count
above the effective `maxGroupsPerOrder` (which defaults to 10 when no
`PaymentSetting` is stored), balance below the cost, or no active
connection — returns the error with the storage untouched: no balance
change, no transaction, no order.  The second conjunct exhibits the
default-10 limit for an unset `PaymentSetting`. -/
theorem C4_rejected_admission_no_mutation (s : Storage) (uid : Nat)
    (req : CreateOrderRequest) :
    (∀ s' e, createOrderRoute s uid req = .err s' e →
      (e = .limitExceeded ∨ e = .insufficientBalance ∨ e = .noActiveConnection) →
      s' = s) ∧
    (s.paymentSettings = none → 10 < req.groupCount →
      createOrderRoute s uid req = .err s .limitExceeded) := by
  constructor
  · intro s' e h he
    apply routeErr_state_unchanged s uid req s' e h
    rcases he with rfl | rfl | rfl <;> simp
  · intro hps hgt
    simp only [createOrderRoute, hps]
    rw [if_neg (by omega), if_pos (by omega)]

/-- C5: on every successful admission (in a state with fresh order ids)
the observable effects happen in exactly this order: balance debited by
the cost, a `completed` debit transaction recorded, the order created
`pending` with `groupsCreated` forced to 0, and the order marked
`processing` — and the order is returned to the caller already in status
`processing`, with the balance debited in storage and the completed debit
transaction present. -/
theorem C5_admission_success_order_of_effects (s : Storage) (uid : Nat)
    (req : CreateOrderRequest) (s' : Storage) (ord : Order)
    (evs : List AdmissionEvent)
    (hwf : ordersFresh s)
    (h : createOrderRoute s uid req = .ok s' ord evs) :
    evs = [ .balanceDebited uid req.cost,
            .txRecorded .debit .completed req.cost,
            .orderCreated ord.id .pending 0,
            .orderStatusSet ord.id .processing ] ∧
    ord.status = .processing ∧
    ord.groupsCreated = 0 ∧
    findOrder s' ord.id = some ord ∧
    (∃ u, getUser s uid = some u ∧
      userBalance s' uid = some (u.balance - req.cost)) ∧
    (∃ tx, tx ∈ s'.transactions ∧ tx.txType = .debit ∧
      tx.status = .completed ∧ tx.amount = req.cost) := by
  have h0 := h
  simp only [createOrderRoute] at h
  split at h
  · cases h
  split at h
  · cases h
  split at h
  · cases h
  next user huser =>
  split at h
  · cases h
  next hbal =>
  split at h
  · cases h
  next conn hconn =>
  -- the admission conditions are now in context; evaluate the route
  set u' : User := { user with balance := user.balance + -req.cost } with hu'
  set usersA : List User :=
    s.users.map (fun x => if x.id == uid then u' else x) with husersA
  have hupd : updateUserBalance s uid (-req.cost) =
      .ok ({ s with users := usersA }, u') := by
    unfold updateUserBalance
    rw [huser]
  set txB : Transaction :=
    { id := s.nextId, userId := uid, txType := .debit, amount := req.cost, description := "Group creation order - " ++ toString req.groupCount ++ " groups", status := .completed } with htxB
  set oB : Order :=
    { id := s.nextId + 1, userId := uid, groupCount := req.groupCount, cost := req.cost, groupNamePattern := req.groupNamePattern.getD "Group {number}", isPrivate := req.isPrivate.getD false, status := .pending, groupsCreated := 0 } with hoB
  set sB : Storage :=
    { users := usersA, telegramConnections := s.telegramConnections, orders := s.orders ++ [oB], groups := s.groups, transactions := s.transactions ++ [txB], paymentSettings := s.paymentSettings, autoMessages := s.autoMessages, nextId := s.nextId + 1 + 1 } with hsB
  have hnone : s.orders.find? (fun x => x.id == oB.id) = none :=
    find?_orders_none_of_fresh s.orders oB.id
      (fun x hx => Nat.lt_succ_of_lt (hwf x hx))
  have hfindB : findOrder sB oB.id = some oB := by
    show (s.orders ++ [oB]).find? (fun x => x.id == oB.id) = some oB
    rw [find?_append_none _ _ _ hnone]
    simp [List.find?_cons]
  set oP : Order := { oB with status := .processing } with hoP
  set sP : Storage :=
    { sB with orders := sB.orders.map (fun x => if x.id == oB.id then oP else x) } with hsP
  have hstat : updateOrderStatus sB oB.id .processing none none =
      .ok (sP, oP) := by
    unfold updateOrderStatus
    rw [hfindB]
    rfl
  have hroute : createOrderRoute s uid req = .ok sP oP
      [ .balanceDebited uid req.cost,
        .txRecorded .debit .completed req.cost,
        .orderCreated oB.id .pending 0,
        .orderStatusSet oB.id .processing ] := by
    simp only [createOrderRoute, huser, hconn, hupd, hstat, createTransaction,
      createOrder, Option.getD_some]
    rw [if_neg (by assumption), if_neg (by assumption), if_neg hbal]
    rfl
  rw [hroute] at h0
  injection h0 with hs ho hev
  subst hs
  subst ho
  subst hev
  refine ⟨rfl, rfl, rfl, ?_, ⟨user, huser, ?_⟩, ⟨txB, ?_, rfl, rfl, rfl⟩⟩
  · exact findOrder_after_update sB oB.id oB oP hfindB rfl
  · have hg : getUser sP uid = some u' :=
      getUser_after_update s uid user u' huser rfl
    unfold userBalance
    rw [hg]
    show some (user.balance + -req.cost) = _
    rw [← sub_eq_add_neg]
  · show txB ∈ s.transactions ++ [txB]
    simp

/-- Concrete state for the C5 witness: account 0 with balance 10, an
active connection, `maxGroupsPerOrder = 10`, no orders stored. -/
def ws5 : Storage :=
  { users := [{ id := 0, balance := 10 }],
    telegramConnections := [{ id := 1, userId := 0, isActive := true }],
    orders := [], groups := [], transactions := [],
    paymentSettings := some { pricePerHundredGroups := 2, maxGroupsPerOrder := 10 },
    autoMessages := [], nextId := 2 }

/-- Witness for C5: a successful admission of 5 groups at cost 0 against
`ws5`, with the effect order instantiated. -/
theorem C5_admission_success_witness :
    ordersFresh ws5 ∧
    ∃ s' ord evs,
      createOrderRoute ws5 0 { groupCount := 5, cost := 0 } = .ok s' ord evs ∧
      (evs = [ .balanceDebited 0 (0 : ℚ),
               .txRecorded .debit .completed (0 : ℚ),
               .orderCreated ord.id .pending 0,
               .orderStatusSet ord.id .processing ] ∧
       ord.status = .processing ∧
       ord.groupsCreated = 0 ∧
       findOrder s' ord.id = some ord ∧
       (∃ u, getUser ws5 0 = some u ∧
         userBalance s' 0 = some (u.balance - 0)) ∧
       (∃ tx, tx ∈ s'.transactions ∧ tx.txType = .debit ∧
         tx.status = .completed ∧ tx.amount = (0 : ℚ))) :=
  ⟨by simp [ordersFresh, ws5], _, _, _, rfl,
    C5_admission_success_order_of_effects ws5 0 { groupCount := 5, cost := 0 }
      _ _ _ (by simp [ordersFresh, ws5]) rfl⟩

/-- Concrete state for the C4 witness: account 0 with balance 10, an
active connection, and `maxGroupsPerOrder = 10`. -/
def ws4 : Storage :=
  { users := [{ id := 0, balance := 10 }],
    telegramConnections := [{ id := 1, userId := 0, isActive := true }],
    orders := [], groups := [], transactions := [],
    paymentSettings := some { pricePerHundredGroups := 2, maxGroupsPerOrder := 10 },
    autoMessages := [], nextId := 2 }

/-- Like `ws4` but with no stored `PaymentSetting`. -/
def ws4b : Storage :=
  { ws4 with paymentSettings := none }

/-- Witness for C4: requesting 20 groups against `ws4` is rejected with
`limitExceeded` and the returned state is exactly `ws4`; with no stored
setting the default limit 10 rejects the same request. -/
theorem C4_rejected_admission_no_mutation_witness :
    (createOrderRoute ws4 0 { groupCount := 20, cost := 0 } =
      .err ws4 .limitExceeded) ∧
    (createOrderRoute ws4 0 { groupCount := 20, cost := 0 } =
        .err ws4 .limitExceeded →
      ws4 = ws4) ∧
    (ws4b.paymentSettings = none) ∧
    (createOrderRoute ws4b 0 { groupCount := 20, cost := 0 } =
      .err ws4b .limitExceeded) :=
  ⟨rfl,
    fun h => (C4_rejected_admission_no_mutation ws4 0
      { groupCount := 20, cost := 0 }).1 ws4 .limitExceeded h (Or.inl rfl),
    rfl,
    (C4_rejected_admission_no_mutation ws4b 0
      { groupCount := 20, cost := 0 }).2 rfl (by decide)⟩

/-! ### OTP disposal lemmas -/

/-- Every stored pending entry is covered by a scheduled timer that fires
no later than five minutes after the entry's creation. -/
def OtpInv (s : OtpSys) : Prop :=
  ∀ p ∈ s.pending, ∃ q ∈ s.timers,
    q.1 = p.1 ∧ q.2 ≤ p.2.created + otpWindowMs

theorem mapGet_none_keys (m : List (String × PendingEntry)) (k : String)
    (h : mapGet m k = none) : ∀ p ∈ m, p.1 ≠ k := by
  intro p hp hk
  unfold mapGet at h
  rw [Option.map_eq_none'] at h
  rw [List.find?_eq_none] at h
  exact absurd (by simp [hk]) (h p hp)

theorem mem_mapDelete (m : List (String × PendingEntry)) (k : String)
    (p : String × PendingEntry) (hp : p ∈ mapDelete m k) :
    p ∈ m ∧ p.1 ≠ k := by
  unfold mapDelete at hp
  have := List.mem_filter.mp hp
  refine ⟨this.1, ?_⟩
  have h2 := this.2
  simp at h2
  exact h2

theorem mapGet_mapDelete (m : List (String × PendingEntry)) (k : String) :
    mapGet (mapDelete m k) k = none := by
  unfold mapGet
  rw [Option.map_eq_none', List.find?_eq_none]
  intro p hp
  have := (mem_mapDelete m k p hp).2
  simp [this]

theorem fireTimer_pending_sub (s : OtpSys) (k : String)
    (p : String × PendingEntry) (hp : p ∈ (fireTimer s k).pending) :
    p ∈ s.pending ∧ p.1 ≠ k := by
  unfold fireTimer at hp
  cases hg : mapGet s.pending k with
  | some e =>
    rw [hg] at hp
    exact mem_mapDelete s.pending k p hp
  | none =>
    rw [hg] at hp
    exact ⟨hp, mapGet_none_keys s.pending k hg p hp⟩

theorem fireTimer_timers (s : OtpSys) (k : String) :
    (fireTimer s k).timers = s.timers := by
  unfold fireTimer
  cases mapGet s.pending k <;> rfl

theorem advanceGo_spec (t : Nat) :
    ∀ (ts : List (String × Nat)) (acc : OtpSys),
      (∀ p ∈ acc.pending, ∃ q, (q ∈ acc.timers ∨ q ∈ ts) ∧
        q.1 = p.1 ∧ q.2 ≤ p.2.created + otpWindowMs) →
      (∀ q ∈ acc.timers, t < q.2) →
      OtpInv (advanceGo t ts acc) ∧
      (∀ q ∈ (advanceGo t ts acc).timers, t < q.2) ∧
      (∀ p ∈ (advanceGo t ts acc).pending, p ∈ acc.pending)
  | [], acc => by
    intro hcov hbd
    refine ⟨?_, hbd, fun p hp => hp⟩
    intro p hp
    obtain ⟨q, hq, h1, h2⟩ := hcov p hp
    rcases hq with hq | hq
    · exact ⟨q, hq, h1, h2⟩
    · cases hq
  | (k, ft) :: rest, acc => by
    intro hcov hbd
    show OtpInv (advanceGo t ((k, ft) :: rest) acc) ∧ _
    by_cases hft : ft ≤ t
    · have hstep : advanceGo t ((k, ft) :: rest) acc =
          advanceGo t rest (fireTimer acc k) := by
        show (if ft ≤ t then advanceGo t rest (fireTimer acc k)
          else advanceGo t rest { acc with timers := acc.timers ++ [(k, ft)] }) = _
        rw [if_pos hft]
      rw [hstep]
      have ih := advanceGo_spec t rest (fireTimer acc k) ?_ ?_
      · exact ⟨ih.1, ih.2.1, fun p hp =>
          (fireTimer_pending_sub acc k p (ih.2.2 p hp)).1⟩
      · intro p hp
        obtain ⟨hmem, hne⟩ := fireTimer_pending_sub acc k p hp
        obtain ⟨q, hq, h1, h2⟩ := hcov p hmem
        rcases hq with hq | hq
        · exact ⟨q, Or.inl (by rw [fireTimer_timers]; exact hq), h1, h2⟩
        · rcases List.mem_cons.mp hq with heq | hq'
          · rw [heq] at h1
            exact absurd h1.symm hne
          · exact ⟨q, Or.inr hq', h1, h2⟩
      · intro q hq
        rw [fireTimer_timers] at hq
        exact hbd q hq
    · have hstep : advanceGo t ((k, ft) :: rest) acc =
          advanceGo t rest { acc with timers := acc.timers ++ [(k, ft)] } := by
        show (if ft ≤ t then advanceGo t rest (fireTimer acc k)
          else advanceGo t rest { acc with timers := acc.timers ++ [(k, ft)] }) = _
        rw [if_neg hft]
      rw [hstep]
      have ih := advanceGo_spec t rest
        { acc with timers := acc.timers ++ [(k, ft)] } ?_ ?_
      · exact ⟨ih.1, ih.2.1, fun p hp => ih.2.2 p hp⟩
      · intro p hp
        obtain ⟨q, hq, h1, h2⟩ := hcov p hp
        rcases hq with hq | hq
        · exact ⟨q, Or.inl (List.mem_append_left _ hq), h1, h2⟩
        · rcases List.mem_cons.mp hq with heq | hq'
          · exact ⟨q, Or.inl (List.mem_append_right _ (by simp [heq])), h1, h2⟩
          · exact ⟨q, Or.inr hq', h1, h2⟩
      · intro q hq
        rcases List.mem_append.mp hq with hq' | hq'
        · exact hbd q hq'
        · rw [List.mem_singleton] at hq'
          subst hq'
          omega

theorem advance_spec (s : OtpSys) (t : Nat) (hinv : OtpInv s) :
    OtpInv (advance s t) ∧
    (∀ q ∈ (advance s t).timers, t < q.2) ∧
    (∀ p ∈ (advance s t).pending, p ∈ s.pending) := by
  unfold advance
  have := advanceGo_spec t s.timers { s with timers := [] } ?_ ?_
  · exact ⟨this.1, this.2.1, this.2.2⟩
  · intro p hp
    obtain ⟨q, hq, h1, h2⟩ := hinv p hp
    exact ⟨q, Or.inr hq, h1, h2⟩
  · intro q hq
    cases hq

theorem stepOtp_inv (s : OtpSys) (a : OtpAction) (hinv : OtpInv s) :
    OtpInv (stepOtp s a) := by
  cases a with
  | request k c t =>
    have hadv := advance_spec s t hinv
    show OtpInv _
    intro p hp
    show ∃ q ∈ (advance s t).timers ++ [(k, t + otpWindowMs)], _
    rcases List.mem_append.mp hp with hp' | hp'
    · obtain ⟨hmem, _⟩ := mem_mapDelete _ k p hp'
      obtain ⟨q, hq, h1, h2⟩ := hadv.1 p hmem
      exact ⟨q, List.mem_append_left _ hq, h1, h2⟩
    · rw [List.mem_singleton] at hp'
      subst hp'
      exact ⟨(k, t + otpWindowMs), List.mem_append_right _ (by simp),
        rfl, Nat.le_refl _⟩
  | verify k ok t =>
    have hadv := advance_spec s t hinv
    show OtpInv _
    cases hg : mapGet (advance s t).pending k with
    | none =>
      simp only [stepOtp, hg]
      exact hadv.1
    | some e =>
      simp only [stepOtp, hg]
      cases ok
      · intro p hp
        have hp' : p ∈ mapDelete (advance s t).pending k := hp
        obtain ⟨hmem, _⟩ := mem_mapDelete _ k p hp'
        exact hadv.1 p hmem
      · intro p hp
        have hp' : p ∈ mapDelete (advance s t).pending k := hp
        obtain ⟨hmem, _⟩ := mem_mapDelete _ k p hp'
        exact hadv.1 p hmem

theorem runOtp_inv (as : List OtpAction) : OtpInv (runOtp as) := by
  unfold runOtp
  have h : ∀ (l : List OtpAction) (s : OtpSys), OtpInv s →
      OtpInv (l.foldl stepOtp s) := by
    intro l
    induction l with
    | nil => exact fun s hs => hs
    | cons a l ih =>
      intro s hs
      exact ih (stepOtp s a) (stepOtp_inv s a hs)
  exact h as emptyOtp (fun p hp => absurd hp (List.not_mem_nil p))

/-- C9: (first conjunct) after any sequence of OTP requests and
verification attempts, advancing the event loop to any time `T` leaves no
pending verification entry older than the fixed five-minute window — every
entry not completed within five minutes of its creation has been disposed
by its scheduled timer; (second conjunct) when the disposal timer fires on
a still-present entry, its gateway connection is disconnected and the
entry is removed from the pending map. -/
theorem C9_pending_entries_expire :
    (∀ (as : List OtpAction) (T : Nat),
      ∀ p ∈ (advance (runOtp as) T).pending,
        T < p.2.created + otpWindowMs) ∧
    (∀ (s : OtpSys) (k : String) (e : PendingEntry),
      mapGet s.pending k = some e →
      mapGet (fireTimer s k).pending k = none ∧
      e.client ∈ (fireTimer s k).disconnected) := by
  constructor
  · intro as T p hp
    have hadv := advance_spec (runOtp as) T (runOtp_inv as)
    obtain ⟨q, hq, h1, h2⟩ := hadv.1 p hp
    have := hadv.2.1 q hq
    omega
  · intro s k e hg
    constructor
    · show mapGet (fireTimer s k).pending k = none
      unfold fireTimer
      rw [hg]
      exact mapGet_mapDelete s.pending k
    · show e.client ∈ (fireTimer s k).disconnected
      unfold fireTimer
      rw [hg]
      exact List.mem_append_right _ (by simp)

/-- Witness for C9: a single OTP request at time 0 is still pending when
the loop is advanced to T = 100ms (within the window), and firing the
timer on a concrete one-entry state disconnects client 7 and empties the
map. -/
theorem C9_pending_entries_expire_witness :
    ((⟨"1-p", 7, 0⟩ : String × PendingEntry) ∈
        (advance (runOtp [.request "1-p" 7 0]) 100).pending →
      (100 : Nat) < 0 + otpWindowMs) ∧
    (mapGet (⟨[("1-p", ⟨7, 0⟩)], [], []⟩ : OtpSys).pending "1-p" =
      some ⟨7, 0⟩ ∧
    mapGet (fireTimer ⟨[("1-p", ⟨7, 0⟩)], [], []⟩ "1-p").pending "1-p" =
      none ∧
    (7 : Nat) ∈ (fireTimer ⟨[("1-p", ⟨7, 0⟩)], [], []⟩ "1-p").disconnected) :=
  ⟨fun hp => C9_pending_entries_expire.1 [.request "1-p" 7 0] 100
      ⟨"1-p", 7, 0⟩ hp,
    rfl,
    (C9_pending_entries_expire.2 ⟨[("1-p", ⟨7, 0⟩)], [], []⟩ "1-p" ⟨7, 0⟩
      rfl).1,
    (C9_pending_entries_expire.2 ⟨[("1-p", ⟨7, 0⟩)], [], []⟩ "1-p" ⟨7, 0⟩
      rfl).2⟩

end TGC
